import Mathlib

/-!
Verification of the sonification / PCM / WAV encoding core of the
github-music-api service.

The repository contains two variants of `GithubService`
(`src/github/github.service.ts` and an earlier unnamed variant).  The pure
algorithmic core is embedded here:

* `getFrequencyFromContribution`  — FrequencyMapper (both variants agree);
* `getNoteDurationFromContribution` — RhythmMapper (unnamed variant);
* `getChordFromContribution`      — HarmonyMapper (unnamed variant);
* `getInstrumentWaveform`         — WaveformSynthesizer (unnamed variant);
* sample renderers for simple mode (`createSamplesFromContributions`)
  and custom mode (`generateCustomMusicSamples`);
* `quantizeSample` / `pcmData`    — PcmQuantizer (16-bit PCM conversion);
* `getWavHeader` / `createWavData` — WavContainerWriter.

JavaScript numbers are IEEE doubles; every double is a rational number, so
exact activity counts and frequency/duration computations are embedded over
`ℚ` while transcendental waveform synthesis is embedded over `ℝ`.
`Math.random()` is modelled by an explicit oracle parameter indexed by
(day, sample, chord-pitch) call position.
-/

namespace GithubMusic

/-- The constant `minFreq = 261.63` (musical C4) of
`getFrequencyFromContribution`. -/
def minFreq : ℚ := 26163 / 100

/-- The constant `maxFreq = 1046.5` (musical C6) of
`getFrequencyFromContribution`. -/
def maxFreq : ℚ := 10465 / 10

/-- FrequencyMapper: `count <= 0` returns `minFreq`, otherwise
`(count / 100) * (maxFreq - minFreq) + minFreq` clamped by
`Math.min(freq, maxFreq)`.  Both source variants compute this same value. -/
def getFrequencyFromContribution (count : ℤ) : ℚ :=
  if count ≤ 0 then minFreq
  else min (((count : ℚ) / 100) * (maxFreq - minFreq) + minFreq) maxFreq

/-- RhythmMapper: `beatDuration = 60 / tempo`, then threshold bands
`count≥50 → beat*4`, `count≥25 → beat*2`, `count≥10 → beat`,
`count≥5 → beat/2`, else `beat/4`. -/
def getNoteDurationFromContribution (count : ℤ) (tempo : ℚ) : ℚ :=
  let beatDuration : ℚ := 60 / tempo
  if 50 ≤ count then beatDuration * 4
  else if 25 ≤ count then beatDuration * 2
  else if 10 ≤ count then beatDuration
  else if 5 ≤ count then beatDuration / 2
  else beatDuration / 4

/-- HarmonyMapper: major triad for `count≥50`, minor triad for `count≥25`,
power chord for `count≥10`, otherwise `null` (single note). -/
def getChordFromContribution (count : ℤ) (baseFreq : ℚ) : Option (List ℚ) :=
  if 50 ≤ count then some [baseFreq, baseFreq * (5 / 4), baseFreq * (3 / 2)]
  else if 25 ≤ count then some [baseFreq, baseFreq * (6 / 5), baseFreq * (3 / 2)]
  else if 10 ≤ count then some [baseFreq, baseFreq * (3 / 2)]
  else none

/-- Truncation toward zero, the rounding JavaScript applies when a float is
stored into an integer-typed buffer slot (`ToIntegerOrInfinity`). -/
def jsTrunc {α : Type} [LinearOrderedRing α] [FloorRing α] (x : α) : ℤ :=
  if 0 ≤ x then ⌊x⌋ else ⌈x⌉

/-- The JavaScript `%` operator on numbers (`fmod`): remainder with the sign
of the dividend, i.e. `a - b * trunc(a / b)`. -/
noncomputable def jsFmod (a b : ℝ) : ℝ :=
  a - b * (jsTrunc (a / b) : ℝ)

/-- WaveformSynthesizer: the `switch (instrumentId)` of
`getInstrumentWaveform`.  `rnd` models the value returned by the
`Math.random()` call a given closure invocation performs (only instrument 6
consults it). -/
noncomputable def getInstrumentWaveform (instrumentId : ℤ) (rnd : ℝ) :
    ℝ → ℝ → ℝ :=
  if instrumentId = 1 then
    fun freq t => Real.sin (2 * Real.pi * freq * t)
  else if instrumentId = 2 then
    fun freq t =>
      (Real.sin (2 * Real.pi * freq * t) +
        0.5 * Real.sin (2 * Real.pi * freq * 2 * t)) / 1.5
  else if instrumentId = 3 then
    fun freq t =>
      (2 / Real.pi) * Real.arcsin (Real.sin (2 * Real.pi * freq * t))
  else if instrumentId = 4 then
    fun freq t =>
      let period := 1 / freq
      (2 * jsFmod t period) / period - 1
  else if instrumentId = 5 then
    fun freq t => Real.sign (Real.sin (2 * Real.pi * freq * t))
  else if instrumentId = 6 then
    fun _freq t => (rnd * 2 - 1) * Real.exp (-t * 5)
  else if instrumentId = 7 then
    fun freq t =>
      Real.sin (2 * Real.pi * freq * t) *
        Real.sin (2 * Real.pi * freq * t * 0.5)
  else if instrumentId = 8 then
    fun freq t =>
      Real.sin (2 * Real.pi * freq * t + 5 * Real.sin (2 * Real.pi * 5 * t))
  else
    fun freq t => Real.sin (2 * Real.pi * freq * t)

/-- The fixed sample rate, `44100` Hz. -/
def sampleRate : ℕ := 44100

/-- One instantaneous sample of `generateCustomMusic` before the volume
scale: the chord-mean when `getChordFromContribution` yields a chord, the
single-pitch waveform otherwise.  The oracle `rnd` is indexed by day index,
sample index and chord-pitch index, one value per `Math.random()` call. -/
noncomputable def noteSampleRaw (dayIdx i : ℕ) (count instrumentId : ℤ)
    (rnd : ℕ → ℕ → ℕ → ℝ) (t : ℝ) : ℝ :=
  let freq := getFrequencyFromContribution count
  match getChordFromContribution count freq with
  | some chordFreqs =>
      ((chordFreqs.enum.map fun p =>
        getInstrumentWaveform instrumentId (rnd dayIdx i p.1) (p.2 : ℝ) t).sum) /
        (chordFreqs.length : ℝ)
  | none => getInstrumentWaveform instrumentId (rnd dayIdx i 0) (freq : ℝ) t

/-- The samples `generateCustomMusic` appends for one contribution day:
`Math.floor(sampleRate * noteDuration)` samples, local time
`t = i / sampleRate` restarting at 0, each scaled by `volume`. -/
noncomputable def dayNoteSamples (dayIdx : ℕ) (count instrumentId : ℤ)
    (tempo volume : ℚ) (rnd : ℕ → ℕ → ℕ → ℝ) : List ℝ :=
  let noteDuration := getNoteDurationFromContribution count tempo
  let sampleCount := (⌊(sampleRate : ℚ) * noteDuration⌋).toNat
  (List.range sampleCount).map fun i =>
    noteSampleRaw dayIdx i count instrumentId rnd ((i : ℝ) / (sampleRate : ℝ)) *
      (volume : ℝ)

/-- The `frequenciesAndDurations.forEach` loop of `generateCustomMusic`,
pushing each day's samples in input order; `dayIdx` is the position of the
current day record. -/
noncomputable def customSamplesFrom (dayIdx : ℕ) (days : List ℤ)
    (instrumentId : ℤ) (tempo volume : ℚ) (rnd : ℕ → ℕ → ℕ → ℝ) : List ℝ :=
  match days with
  | [] => []
  | count :: rest =>
      dayNoteSamples dayIdx count instrumentId tempo volume rnd ++
        customSamplesFrom (dayIdx + 1) rest instrumentId tempo volume rnd

/-- The full custom-mode sample buffer for an ordered list of contribution
counts. -/
noncomputable def generateCustomMusicSamples (days : List ℤ)
    (instrumentId : ℤ) (tempo volume : ℚ) (rnd : ℕ → ℕ → ℕ → ℝ) : List ℝ :=
  customSamplesFrom 0 days instrumentId tempo volume rnd

/-- Simple mode note duration: `0.1` seconds per day. -/
def simpleDuration : ℚ := 1 / 10

/-- Simple mode per-day sample count: the loop bound `sampleRate * duration`
(`= 4410` exactly). -/
def simpleSampleCount : ℕ := (⌊(sampleRate : ℚ) * simpleDuration⌋).toNat

/-- The simple-mode renderer `createSamplesFromContributions`: for each day
a sine tone `sin(2π f (i / sampleRate)) * 0.5` for `4410` samples. -/
noncomputable def createSamplesFromContributions (days : List ℤ) : List ℝ :=
  days.flatMap fun count =>
    (List.range simpleSampleCount).map fun i =>
      Real.sin (2 * Real.pi * (getFrequencyFromContribution count : ℝ) *
        ((i : ℝ) / (sampleRate : ℝ))) * 0.5

/-- Little-endian bytes of a 16-bit unsigned value. -/
def u16le (v : ℕ) : List ℕ := [v % 256, v / 256 % 256]

/-- Little-endian bytes of a 32-bit unsigned value. -/
def u32le (v : ℕ) : List ℕ :=
  [v % 256, v / 256 % 256, v / 65536 % 256, v / 16777216 % 256]

/-- Little-endian bytes of a signed 16-bit value (two's complement), as
`buffer.writeInt16LE` lays it out. -/
def i16le (z : ℤ) : List ℕ := u16le (z % 65536).toNat

/-- PcmQuantizer step: `const s = Math.max(-1, Math.min(1, samples[i]))`
followed by `writeInt16LE(s * 32767, …)`, whose store truncates toward
zero. -/
def quantizeSample {α : Type} [LinearOrderedField α] [FloorRing α]
    (s : α) : ℤ :=
  jsTrunc (max (-1) (min 1 s) * 32767)

/-- The 16-bit PCM data section: two little-endian bytes per input sample. -/
def pcmData {α : Type} [LinearOrderedField α] [FloorRing α]
    (samples : List α) : List ℕ :=
  samples.flatMap fun s => i16le (quantizeSample s)

/-- WavContainerWriter header: the 44-byte layout of `getWavHeader`. -/
def getWavHeader (samplesLength sampleRateHz : ℕ) : List ℕ :=
  let blockAlign := 2
  let byteRate := sampleRateHz * blockAlign
  let dataSize := samplesLength * blockAlign
  [82, 73, 70, 70] ++ u32le (36 + dataSize) ++
    [87, 65, 86, 69] ++ [102, 109, 116, 32] ++
    u32le 16 ++ u16le 1 ++ u16le 1 ++
    u32le sampleRateHz ++ u32le byteRate ++
    u16le blockAlign ++ u16le 16 ++
    [100, 97, 116, 97] ++ u32le dataSize

/-- The writer `createWavData`: 44-byte header for `samples.length` samples
at 44100 Hz, followed by the quantized PCM bytes
(`Buffer.concat([wavHeader, buffer])`). -/
def createWavData {α : Type} [LinearOrderedField α] [FloorRing α]
    (samples : List α) : List ℕ :=
  getWavHeader samples.length 44100 ++ pcmData samples

/-- The pure audio core of `generateAndSendMusic` (service variant): simple
mode samples, then WAV encoding. -/
noncomputable def generateAndSendMusicWav (days : List ℤ) : List ℕ :=
  createWavData (createSamplesFromContributions days)

/-- The pure audio core of the service variant's `generateCustomMusic`: it
ignores `instrumentId`, `tempo` and `volume` and just reuses
`generateAndSendMusic`. -/
noncomputable def serviceGenerateCustomMusicWav (days : List ℤ)
    (_instrumentId : ℤ) (_tempo _volume : ℚ) : List ℕ :=
  generateAndSendMusicWav days

/-- Decode a little-endian 32-bit field at byte offset `off`. -/
def decU32 (bs : List ℕ) (off : ℕ) : ℕ :=
  match bs.drop off with
  | b0 :: b1 :: b2 :: b3 :: _ => b0 + 256 * b1 + 65536 * b2 + 16777216 * b3
  | _ => 0

/-- Decode a little-endian 16-bit field at byte offset `off`. -/
def decU16 (bs : List ℕ) (off : ℕ) : ℕ :=
  match bs.drop off with
  | b0 :: b1 :: _ => b0 + 256 * b1
  | _ => 0

/-- JavaScript `Math.round`: floor of `x + 1/2`. -/
def jsRound (q : ℚ) : ℤ := ⌊q + 1 / 2⌋

/-! ### FrequencyMapper -/

lemma freq_le_max (count : ℤ) : getFrequencyFromContribution count ≤ maxFreq := by
  unfold getFrequencyFromContribution
  split_ifs with h
  · norm_num [minFreq, maxFreq]
  · exact min_le_right _ _

lemma min_le_freq (count : ℤ) : minFreq ≤ getFrequencyFromContribution count := by
  unfold getFrequencyFromContribution
  split_ifs with h
  · exact le_refl _
  · refine le_min ?_ ?_
    · have hc : (1 : ℚ) ≤ (count : ℚ) := by exact_mod_cast (by omega : (1 : ℤ) ≤ count)
      have hd : (0 : ℚ) < maxFreq - minFreq := by norm_num [minFreq, maxFreq]
      nlinarith
    · norm_num [minFreq, maxFreq]

/-- C1: the FrequencyMapper returns `261.63` for `count ≤ 0`, otherwise
`min((count/100)·(1046.5 − 261.63) + 261.63, 1046.5)`; its output always lies
in `[261.63, 1046.5]`, equals `1046.5` for every `count ≥ 100`, and is
monotonically non-decreasing over `[0, 100]`. -/
theorem frequencyMapper_spec :
    (∀ count : ℤ, count ≤ 0 → getFrequencyFromContribution count = 26163 / 100) ∧
    (∀ count : ℤ, 0 < count →
      getFrequencyFromContribution count =
        min (((count : ℚ) / 100) * (10465 / 10 - 26163 / 100) + 26163 / 100)
          (10465 / 10)) ∧
    (∀ count : ℤ,
      26163 / 100 ≤ getFrequencyFromContribution count ∧
        getFrequencyFromContribution count ≤ 10465 / 10) ∧
    (∀ count : ℤ, 100 ≤ count → getFrequencyFromContribution count = 10465 / 10) ∧
    (∀ c₁ c₂ : ℤ, 0 ≤ c₁ → c₁ ≤ c₂ → c₂ ≤ 100 →
      getFrequencyFromContribution c₁ ≤ getFrequencyFromContribution c₂) := by
  refine ⟨?_, ?_, ?_, ?_, ?_⟩
  · intro count h
    simp [getFrequencyFromContribution, h, minFreq]
  · intro count h
    unfold getFrequencyFromContribution minFreq maxFreq
    rw [if_neg (by omega)]
  · intro count
    constructor
    · have := min_le_freq count
      rwa [minFreq] at this
    · have := freq_le_max count
      rwa [maxFreq] at this
  · intro count h
    unfold getFrequencyFromContribution minFreq maxFreq
    rw [if_neg (by omega)]
    have hc : (100 : ℚ) ≤ (count : ℚ) := by exact_mod_cast h
    rw [min_eq_right (by nlinarith)]
  · intro c₁ c₂ h0 h12 _h100
    rcases eq_or_lt_of_le h0 with h | h
    · have : getFrequencyFromContribution c₁ = minFreq := by
        unfold getFrequencyFromContribution
        rw [if_pos (by omega)]
      rw [this]
      exact min_le_freq c₂
    · unfold getFrequencyFromContribution
      rw [if_neg (by omega), if_neg (by omega)]
      refine min_le_min ?_ le_rfl
      have hc : (c₁ : ℚ) ≤ (c₂ : ℚ) := by exact_mod_cast h12
      have hd : (0 : ℚ) < maxFreq - minFreq := by norm_num [minFreq, maxFreq]
      nlinarith

/-- Witness for `frequencyMapper_spec` at concrete inputs. -/
theorem frequencyMapper_spec_witness :
    ((0 : ℤ) ≤ 0 ∧ getFrequencyFromContribution 0 = 26163 / 100) ∧
    ((100 : ℤ) ≤ 120 ∧ getFrequencyFromContribution 120 = 10465 / 10) :=
  ⟨⟨le_rfl, frequencyMapper_spec.1 0 le_rfl⟩,
    ⟨by norm_num, frequencyMapper_spec.2.2.2.1 120 (by norm_num)⟩⟩

/-! ### RhythmMapper -/

/-- C5: with `beatDuration = 60/tempo`, the RhythmMapper returns
`4·beat` for `count ≥ 50`, `2·beat` for `25 ≤ count < 50`, `1·beat` for
`10 ≤ count < 25`, `0.5·beat` for `5 ≤ count < 10`, `0.25·beat` otherwise;
for every `tempo > 0` the five example durations are strictly decreasing. -/
theorem rhythmMapper_spec :
    (∀ (count : ℤ) (tempo : ℚ),
      (50 ≤ count → getNoteDurationFromContribution count tempo = 4 * (60 / tempo)) ∧
      (25 ≤ count → count < 50 →
        getNoteDurationFromContribution count tempo = 2 * (60 / tempo)) ∧
      (10 ≤ count → count < 25 →
        getNoteDurationFromContribution count tempo = 1 * (60 / tempo)) ∧
      (5 ≤ count → count < 10 →
        getNoteDurationFromContribution count tempo = (1 / 2) * (60 / tempo)) ∧
      (count < 5 → getNoteDurationFromContribution count tempo = (1 / 4) * (60 / tempo))) ∧
    (∀ tempo : ℚ, 0 < tempo →
      getNoteDurationFromContribution 30 tempo < getNoteDurationFromContribution 60 tempo ∧
      getNoteDurationFromContribution 15 tempo < getNoteDurationFromContribution 30 tempo ∧
      getNoteDurationFromContribution 7 tempo < getNoteDurationFromContribution 15 tempo ∧
      getNoteDurationFromContribution 1 tempo < getNoteDurationFromContribution 7 tempo) := by
  constructor
  · intro count tempo
    refine ⟨?_, ?_, ?_, ?_, ?_⟩
    · intro h
      simp only [getNoteDurationFromContribution, if_pos h]; ring
    · intro h h'
      have n50 : ¬ (50 : ℤ) ≤ count := by omega
      simp only [getNoteDurationFromContribution, if_neg n50, if_pos h]; ring
    · intro h h'
      have n50 : ¬ (50 : ℤ) ≤ count := by omega
      have n25 : ¬ (25 : ℤ) ≤ count := by omega
      simp only [getNoteDurationFromContribution, if_neg n50, if_neg n25, if_pos h]
      ring
    · intro h h'
      have n50 : ¬ (50 : ℤ) ≤ count := by omega
      have n25 : ¬ (25 : ℤ) ≤ count := by omega
      have n10 : ¬ (10 : ℤ) ≤ count := by omega
      simp only [getNoteDurationFromContribution, if_neg n50, if_neg n25, if_neg n10,
        if_pos h]
      ring
    · intro h
      have n50 : ¬ (50 : ℤ) ≤ count := by omega
      have n25 : ¬ (25 : ℤ) ≤ count := by omega
      have n10 : ¬ (10 : ℤ) ≤ count := by omega
      have n5 : ¬ (5 : ℤ) ≤ count := by omega
      simp only [getNoteDurationFromContribution, if_neg n50, if_neg n25, if_neg n10,
        if_neg n5]
      ring
  · intro tempo ht
    have hb : (0 : ℚ) < 60 / tempo := by positivity
    have d60 : getNoteDurationFromContribution 60 tempo = 60 / tempo * 4 := by
      simp only [getNoteDurationFromContribution, if_pos (by decide : (50 : ℤ) ≤ 60)]
    have d30 : getNoteDurationFromContribution 30 tempo = 60 / tempo * 2 := by
      simp only [getNoteDurationFromContribution,
        if_neg (by decide : ¬ (50 : ℤ) ≤ 30), if_pos (by decide : (25 : ℤ) ≤ 30)]
    have d15 : getNoteDurationFromContribution 15 tempo = 60 / tempo := by
      simp only [getNoteDurationFromContribution,
        if_neg (by decide : ¬ (50 : ℤ) ≤ 15), if_neg (by decide : ¬ (25 : ℤ) ≤ 15),
        if_pos (by decide : (10 : ℤ) ≤ 15)]
    have d7 : getNoteDurationFromContribution 7 tempo = 60 / tempo / 2 := by
      simp only [getNoteDurationFromContribution,
        if_neg (by decide : ¬ (50 : ℤ) ≤ 7), if_neg (by decide : ¬ (25 : ℤ) ≤ 7),
        if_neg (by decide : ¬ (10 : ℤ) ≤ 7), if_pos (by decide : (5 : ℤ) ≤ 7)]
    have d1 : getNoteDurationFromContribution 1 tempo = 60 / tempo / 4 := by
      simp only [getNoteDurationFromContribution,
        if_neg (by decide : ¬ (50 : ℤ) ≤ 1), if_neg (by decide : ¬ (25 : ℤ) ≤ 1),
        if_neg (by decide : ¬ (10 : ℤ) ≤ 1), if_neg (by decide : ¬ (5 : ℤ) ≤ 1)]
    rw [d60, d30, d15, d7, d1]
    refine ⟨by linarith, by linarith, by linarith, by linarith⟩

/-- Witness for `rhythmMapper_spec` at `count = 60`, `tempo = 120`. -/
theorem rhythmMapper_spec_witness :
    ((50 : ℤ) ≤ 60 ∧ getNoteDurationFromContribution 60 120 = 4 * (60 / 120)) ∧
    ((0 : ℚ) < 120 ∧
      getNoteDurationFromContribution 30 120 < getNoteDurationFromContribution 60 120) :=
  ⟨⟨by norm_num, (rhythmMapper_spec.1 60 120).1 (by norm_num)⟩,
    ⟨by norm_num, (rhythmMapper_spec.2 120 (by norm_num)).1⟩⟩

/-! ### HarmonyMapper -/

/-- C6: the HarmonyMapper yields `[base, base·5/4, base·3/2]` for
`count ≥ 50`, `[base, base·6/5, base·3/2]` for `25 ≤ count < 50`,
`[base, base·3/2]` for `10 ≤ count < 25`, and no chord for `count < 10`;
in particular `(60, 440)` gives exactly `[440, 550, 660]` and `(3, 440)`
gives no chord. -/
theorem harmonyMapper_spec :
    (∀ (count : ℤ) (base : ℚ),
      (50 ≤ count → getChordFromContribution count base =
        some [base, base * (5 / 4), base * (3 / 2)]) ∧
      (25 ≤ count → count < 50 → getChordFromContribution count base =
        some [base, base * (6 / 5), base * (3 / 2)]) ∧
      (10 ≤ count → count < 25 → getChordFromContribution count base =
        some [base, base * (3 / 2)]) ∧
      (count < 10 → getChordFromContribution count base = none)) ∧
    getChordFromContribution 60 440 = some [440, 550, 660] ∧
    getChordFromContribution 3 440 = none := by
  refine ⟨fun count base => ⟨?_, ?_, ?_, ?_⟩, ?_, ?_⟩
  · intro h
    simp only [getChordFromContribution, if_pos h]
  · intro h h'
    have n50 : ¬ (50 : ℤ) ≤ count := by omega
    simp only [getChordFromContribution, if_neg n50, if_pos h]
  · intro h h'
    have n50 : ¬ (50 : ℤ) ≤ count := by omega
    have n25 : ¬ (25 : ℤ) ≤ count := by omega
    simp only [getChordFromContribution, if_neg n50, if_neg n25, if_pos h]
  · intro h
    have n50 : ¬ (50 : ℤ) ≤ count := by omega
    have n25 : ¬ (25 : ℤ) ≤ count := by omega
    have n10 : ¬ (10 : ℤ) ≤ count := by omega
    simp only [getChordFromContribution, if_neg n50, if_neg n25, if_neg n10]
  · norm_num [getChordFromContribution]
  · norm_num [getChordFromContribution]

/-- Witness for `harmonyMapper_spec` at `count = 60`, `base = 440`. -/
theorem harmonyMapper_spec_witness :
    (50 : ℤ) ≤ 60 ∧
      getChordFromContribution 60 440 = some [440, 440 * (5 / 4), 440 * (3 / 2)] :=
  ⟨by norm_num, (harmonyMapper_spec.1 60 440).1 (by norm_num)⟩

/-! ### WavContainerWriter -/

lemma pcmData_cons {α : Type} [LinearOrderedField α] [FloorRing α]
    (s : α) (rest : List α) :
    pcmData (s :: rest) = i16le (quantizeSample s) ++ pcmData rest := rfl

lemma pcmData_length {α : Type} [LinearOrderedField α] [FloorRing α]
    (samples : List α) : (pcmData samples).length = 2 * samples.length := by
  induction samples with
  | nil => rfl
  | cons s rest ih =>
      rw [pcmData_cons, List.length_append, ih, List.length_cons]
      have h2 : (i16le (quantizeSample s)).length = 2 := rfl
      rw [h2]; ring

lemma getWavHeader_cons (n : ℕ) : getWavHeader n 44100 =
    82 :: 73 :: 70 :: 70 ::
    ((36 + n * 2) % 256) :: ((36 + n * 2) / 256 % 256) ::
    ((36 + n * 2) / 65536 % 256) :: ((36 + n * 2) / 16777216 % 256) ::
    87 :: 65 :: 86 :: 69 :: 102 :: 109 :: 116 :: 32 ::
    16 :: 0 :: 0 :: 0 :: 1 :: 0 :: 1 :: 0 ::
    68 :: 172 :: 0 :: 0 :: 136 :: 88 :: 1 :: 0 ::
    2 :: 0 :: 16 :: 0 :: 100 :: 97 :: 116 :: 97 ::
    (n * 2 % 256) :: (n * 2 / 256 % 256) ::
    (n * 2 / 65536 % 256) :: (n * 2 / 16777216 % 256) :: [] := by
  norm_num [getWavHeader, u32le, u16le]

/-- C3: for every sample count `n` (with `36 + 2n` encodable in 32 bits, the
precondition of `writeUInt32LE`), `getWavHeader` is exactly 44 bytes with
the canonical RIFF/WAVE field values, all multi-byte fields little-endian,
and `createWavData` is that header followed by the `2n` PCM data bytes. -/
theorem wavContainerWriter_spec :
    (∀ n : ℕ, 36 + 2 * n < 4294967296 →
      (getWavHeader n 44100).length = 44 ∧
      (getWavHeader n 44100).take 4 = [82, 73, 70, 70] ∧
      decU32 (getWavHeader n 44100) 4 = 36 + 2 * n ∧
      ((getWavHeader n 44100).drop 8).take 4 = [87, 65, 86, 69] ∧
      ((getWavHeader n 44100).drop 12).take 4 = [102, 109, 116, 32] ∧
      decU32 (getWavHeader n 44100) 16 = 16 ∧
      decU16 (getWavHeader n 44100) 20 = 1 ∧
      decU16 (getWavHeader n 44100) 22 = 1 ∧
      decU32 (getWavHeader n 44100) 24 = 44100 ∧
      decU32 (getWavHeader n 44100) 28 = 88200 ∧
      decU16 (getWavHeader n 44100) 32 = 2 ∧
      decU16 (getWavHeader n 44100) 34 = 16 ∧
      ((getWavHeader n 44100).drop 36).take 4 = [100, 97, 116, 97] ∧
      decU32 (getWavHeader n 44100) 40 = 2 * n) ∧
    (∀ samples : List ℚ,
      createWavData samples = getWavHeader samples.length 44100 ++ pcmData samples ∧
      (pcmData samples).length = 2 * samples.length) := by
  constructor
  · intro n hn
    rw [getWavHeader_cons]
    refine ⟨rfl, rfl, ?_, rfl, rfl, rfl, rfl, rfl, rfl, rfl, rfl, rfl, rfl, ?_⟩
    · show (36 + n * 2) % 256 + 256 * ((36 + n * 2) / 256 % 256) +
          65536 * ((36 + n * 2) / 65536 % 256) +
          16777216 * ((36 + n * 2) / 16777216 % 256) = 36 + 2 * n
      omega
    · show n * 2 % 256 + 256 * (n * 2 / 256 % 256) +
          65536 * (n * 2 / 65536 % 256) +
          16777216 * (n * 2 / 16777216 % 256) = 2 * n
      omega
  · exact fun samples => ⟨rfl, pcmData_length samples⟩

/-- Witness for `wavContainerWriter_spec` at `n = 3` and a concrete sample. -/
theorem wavContainerWriter_spec_witness :
    36 + 2 * 3 < 4294967296 ∧ decU32 (getWavHeader 3 44100) 4 = 36 + 2 * 3 :=
  ⟨by norm_num, (wavContainerWriter_spec.1 3 (by norm_num)).2.2.1⟩

/-! ### PcmQuantizer -/

lemma jsTrunc_bounds {x : ℚ} (h1 : -32767 ≤ x) (h2 : x ≤ 32767) :
    -32767 ≤ jsTrunc x ∧ jsTrunc x ≤ 32767 := by
  unfold jsTrunc
  split_ifs with h
  · constructor
    · have := Int.floor_nonneg.mpr h
      omega
    · have hf : ⌊x⌋ ≤ ⌊((32767 : ℤ) : ℚ)⌋ := Int.floor_mono (by exact_mod_cast h2)
      rwa [Int.floor_intCast] at hf
  · push_neg at h
    constructor
    · have hc : ⌈((-32767 : ℤ) : ℚ)⌉ ≤ ⌈x⌉ := Int.ceil_mono (by exact_mod_cast h1)
      rwa [Int.ceil_intCast] at hc
    · have : ⌈x⌉ ≤ (0 : ℤ) := Int.ceil_le.mpr (by exact_mod_cast h.le)
      omega

/-- C4: the PcmQuantizer clamps each sample to `[-1,1]`, scales by `32767`,
truncates toward zero and stores two little-endian bytes; every emitted
value lies in `[-32767, 32767]` (even for out-of-range inputs such as `2`
or `-5`), and the data length is twice the input length. -/
theorem pcmQuantizer_spec :
    (∀ samples : List ℚ, (pcmData samples).length = 2 * samples.length) ∧
    (∀ s : ℚ, quantizeSample s = jsTrunc (max (-1) (min 1 s) * 32767)) ∧
    (∀ s : ℚ, pcmData [s] = i16le (quantizeSample s)) ∧
    (∀ s : ℚ, -32767 ≤ quantizeSample s ∧ quantizeSample s ≤ 32767) ∧
    quantizeSample (2 : ℚ) = 32767 ∧ quantizeSample (-5 : ℚ) = -32767 := by
  refine ⟨fun samples => pcmData_length samples, fun _ => rfl,
    fun s => by simp [pcmData_cons, pcmData], fun s => ?_, ?_, ?_⟩
  · have hlo : (-1 : ℚ) ≤ max (-1) (min 1 s) := le_max_left _ _
    have hhi : max (-1) (min 1 s) ≤ 1 := max_le (by norm_num) (min_le_left _ _)
    exact jsTrunc_bounds (by nlinarith) (by nlinarith)
  · have h2 : max (-1 : ℚ) (min 1 2) = 1 := by norm_num
    show jsTrunc (max (-1 : ℚ) (min 1 2) * 32767) = 32767
    rw [h2]; norm_num [jsTrunc]
  · have h5 : max (-1 : ℚ) (min 1 (-5)) = -1 := by norm_num
    show jsTrunc (max (-1 : ℚ) (min 1 (-5)) * 32767) = -32767
    rw [h5]
    unfold jsTrunc
    rw [if_neg (by norm_num)]
    rw [show ((-1 : ℚ) * 32767) = ((-32767 : ℤ) : ℚ) by norm_num, Int.ceil_intCast]

/-! ### Custom-mode sample renderer -/

lemma dayNoteSamples_length (dayIdx : ℕ) (count instrumentId : ℤ)
    (tempo volume : ℚ) (rnd : ℕ → ℕ → ℕ → ℝ) :
    (dayNoteSamples dayIdx count instrumentId tempo volume rnd).length =
      (⌊(sampleRate : ℚ) * getNoteDurationFromContribution count tempo⌋).toNat := by
  simp [dayNoteSamples]

lemma customSamplesFrom_length (days : List ℤ) (instrumentId : ℤ)
    (tempo volume : ℚ) (rnd : ℕ → ℕ → ℕ → ℝ) : ∀ dayIdx : ℕ,
    (customSamplesFrom dayIdx days instrumentId tempo volume rnd).length =
      (days.map fun c =>
        (⌊(sampleRate : ℚ) * getNoteDurationFromContribution c tempo⌋).toNat).sum := by
  induction days with
  | nil => intro dayIdx; rfl
  | cons c rest ih =>
      intro dayIdx
      simp only [customSamplesFrom, List.length_append, List.map_cons, List.sum_cons,
        dayNoteSamples_length, ih]

lemma customSamplesFrom_eq_flatten (days : List ℤ) (instrumentId : ℤ)
    (tempo volume : ℚ) (rnd : ℕ → ℕ → ℕ → ℝ) : ∀ dayIdx : ℕ,
    customSamplesFrom dayIdx days instrumentId tempo volume rnd =
      ((List.enumFrom dayIdx days).map fun p =>
        dayNoteSamples p.1 p.2 instrumentId tempo volume rnd).flatten := by
  induction days with
  | nil => intro dayIdx; rfl
  | cons c rest ih =>
      intro dayIdx
      simp only [customSamplesFrom, List.enumFrom_cons, List.map_cons,
        List.flatten_cons, ih]

/-- C2 (amended): in custom-mode rendering each day record, processed in
input order, appends exactly `Math.floor(sampleRateHz × durationSeconds)`
samples (not `round`), with local time `t = i / sampleRate` reset to 0 per
day; the total sample count is the sum of the per-day floor counts. -/
theorem customRenderer_sample_structure (days : List ℤ) (instrumentId : ℤ)
    (tempo volume : ℚ) (rnd : ℕ → ℕ → ℕ → ℝ) :
    (generateCustomMusicSamples days instrumentId tempo volume rnd).length =
      (days.map fun c =>
        (⌊(sampleRate : ℚ) * getNoteDurationFromContribution c tempo⌋).toNat).sum ∧
    generateCustomMusicSamples days instrumentId tempo volume rnd =
      (days.enum.map fun p =>
        (List.range
          ((⌊(sampleRate : ℚ) * getNoteDurationFromContribution p.2 tempo⌋).toNat)).map
          fun i =>
            noteSampleRaw p.1 i p.2 instrumentId rnd ((i : ℝ) / (sampleRate : ℝ)) *
              (volume : ℝ)).flatten := by
  constructor
  · exact customSamplesFrom_length days instrumentId tempo volume rnd 0
  · rw [List.enum_eq_enumFrom]
    exact customSamplesFrom_eq_flatten days instrumentId tempo volume rnd 0

lemma duration_count_one : getNoteDurationFromContribution 1 120 = 1 / 8 := by
  simp only [getNoteDurationFromContribution,
    if_neg (by decide : ¬ (50 : ℤ) ≤ 1), if_neg (by decide : ¬ (25 : ℤ) ≤ 1),
    if_neg (by decide : ¬ (10 : ℤ) ≤ 1), if_neg (by decide : ¬ (5 : ℤ) ≤ 1)]
  norm_num

/-- C2 counterexample: for the single day record with `count = 1` at
`tempo = 120`, the renderer emits `⌊44100 × 0.125⌋ = 5512` samples while the
claimed `round(44100 × 0.125)` is `5513`. -/
theorem customRenderer_round_cex :
    (generateCustomMusicSamples [1] 1 120 (1 / 2) (fun _ _ _ => 0)).length = 5512 ∧
    jsRound ((sampleRate : ℚ) * getNoteDurationFromContribution 1 120) = 5513 ∧
    ((generateCustomMusicSamples [1] 1 120 (1 / 2) (fun _ _ _ => 0)).length : ℤ) ≠
      jsRound ((sampleRate : ℚ) * getNoteDurationFromContribution 1 120) := by
  have hprod : (sampleRate : ℚ) * getNoteDurationFromContribution 1 120 = 11025 / 2 := by
    rw [duration_count_one]
    norm_num [sampleRate]
  have hfloor : ⌊(sampleRate : ℚ) * getNoteDurationFromContribution 1 120⌋ = 5512 := by
    rw [hprod, Int.floor_eq_iff]
    norm_num
  have hlen : (generateCustomMusicSamples [1] 1 120 (1 / 2) (fun _ _ _ => 0)).length = 5512 := by
    have := customSamplesFrom_length [1] 1 120 (1 / 2) (fun _ _ _ => 0) 0
    simp only [List.map_cons, List.map_nil, List.sum_cons, List.sum_nil, hfloor] at this
    exact this
  have hround : jsRound ((sampleRate : ℚ) * getNoteDurationFromContribution 1 120) = 5513 := by
    rw [jsRound, hprod]
    rw [show (11025 / 2 + 1 / 2 : ℚ) = ((5513 : ℤ) : ℚ) by norm_num, Int.floor_intCast]
  refine ⟨hlen, hround, ?_⟩
  rw [hlen, hround]
  decide

/-! ### WaveformSynthesizer -/

lemma enum_map_const_snd {β : Type} (l : List ℚ) (g : ℚ → β) :
    l.enum.map (fun p => g p.2) = l.map g := by
  rw [show (fun p : ℕ × ℚ => g p.2) = g ∘ Prod.snd from rfl, ← List.map_map,
    List.enum_map_snd]

/-- C7: the eight instrument waveforms compute exactly the documented
formulas; any selector outside `{1..8}` falls back to the pure sine; and
with a chord active the instantaneous raw sample is the arithmetic mean of
the selected waveform over the chord pitches at the same `t`. -/
theorem waveformSynthesizer_spec :
    (∀ (rnd f t : ℝ), 0 < f → 0 ≤ t →
      getInstrumentWaveform 1 rnd f t = Real.sin (2 * Real.pi * f * t) ∧
      getInstrumentWaveform 2 rnd f t =
        (Real.sin (2 * Real.pi * f * t) + 0.5 * Real.sin (2 * Real.pi * (2 * f) * t)) / 1.5 ∧
      getInstrumentWaveform 3 rnd f t =
        (2 / Real.pi) * Real.arcsin (Real.sin (2 * Real.pi * f * t)) ∧
      getInstrumentWaveform 4 rnd f t =
        2 * (t - 1 / f * (⌊t / (1 / f)⌋ : ℤ)) / (1 / f) - 1 ∧
      getInstrumentWaveform 5 rnd f t = Real.sign (Real.sin (2 * Real.pi * f * t)) ∧
      getInstrumentWaveform 6 rnd f t = (rnd * 2 - 1) * Real.exp (-(5 * t)) ∧
      getInstrumentWaveform 7 rnd f t =
        Real.sin (2 * Real.pi * f * t) * Real.sin (Real.pi * f * t) ∧
      getInstrumentWaveform 8 rnd f t =
        Real.sin (2 * Real.pi * f * t + 5 * Real.sin (2 * Real.pi * 5 * t)) ∧
      (∀ id : ℤ, id < 1 ∨ 8 < id →
        getInstrumentWaveform id rnd f t = Real.sin (2 * Real.pi * f * t))) ∧
    (∀ (dayIdx i : ℕ) (count instrumentId : ℤ) (r t : ℝ) (chordFreqs : List ℚ),
      getChordFromContribution count (getFrequencyFromContribution count) =
        some chordFreqs →
      noteSampleRaw dayIdx i count instrumentId (fun _ _ _ => r) t =
        ((chordFreqs.map fun q : ℚ =>
          getInstrumentWaveform instrumentId r (q : ℝ) t).sum) /
          (chordFreqs.length : ℝ)) := by
  constructor
  · intro rnd f t hf ht
    refine ⟨rfl, ?_, rfl, ?_, rfl, ?_, ?_, rfl, ?_⟩
    · show (Real.sin (2 * Real.pi * f * t) +
          0.5 * Real.sin (2 * Real.pi * f * 2 * t)) / 1.5 = _
      rw [show (2 * Real.pi * f * 2 * t : ℝ) = 2 * Real.pi * (2 * f) * t by ring]
    · show (2 * jsFmod t (1 / f)) / (1 / f) - 1 = _
      have h0 : (0 : ℝ) ≤ t / (1 / f) := div_nonneg ht (by positivity)
      simp only [jsFmod, jsTrunc, if_pos h0]
    · show (rnd * 2 - 1) * Real.exp (-t * 5) = _
      rw [show (-t * 5 : ℝ) = -(5 * t) by ring]
    · show Real.sin (2 * Real.pi * f * t) *
          Real.sin (2 * Real.pi * f * t * 0.5) = _
      rw [show (2 * Real.pi * f * t * 0.5 : ℝ) = Real.pi * f * t by ring]
    · intro id hid
      unfold getInstrumentWaveform
      split_ifs with h1 h2 h3 h4 h5 h6 h7 h8 <;> first | rfl | omega
  · intro dayIdx i count instrumentId r t chordFreqs hc
    simp only [noteSampleRaw, hc]
    rw [enum_map_const_snd chordFreqs fun q : ℚ =>
      getInstrumentWaveform instrumentId r (q : ℝ) t]

/-- Witness for `waveformSynthesizer_spec` at concrete inputs. -/
theorem waveformSynthesizer_spec_witness :
    ((0 : ℝ) < 1 ∧ (0 : ℝ) ≤ 0 ∧
      getInstrumentWaveform 1 0 1 0 = Real.sin (2 * Real.pi * 1 * 0)) ∧
    (getChordFromContribution 60 (getFrequencyFromContribution 60) =
        some [getFrequencyFromContribution 60, getFrequencyFromContribution 60 * (5 / 4),
          getFrequencyFromContribution 60 * (3 / 2)] ∧
      noteSampleRaw 0 0 60 1 (fun _ _ _ => 0) 0 =
        (([getFrequencyFromContribution 60, getFrequencyFromContribution 60 * (5 / 4),
          getFrequencyFromContribution 60 * (3 / 2)].map fun q : ℚ =>
            getInstrumentWaveform 1 0 (q : ℝ) 0).sum) / 3) := by
  have hc : getChordFromContribution 60 (getFrequencyFromContribution 60) =
      some [getFrequencyFromContribution 60, getFrequencyFromContribution 60 * (5 / 4),
        getFrequencyFromContribution 60 * (3 / 2)] := by
    simp only [getChordFromContribution]
    rw [if_pos (by omega)]
  refine ⟨⟨by norm_num, le_rfl,
    (waveformSynthesizer_spec.1 0 1 0 (by norm_num) le_rfl).1⟩, hc, ?_⟩
  have := waveformSynthesizer_spec.2 0 0 60 1 0 0 _ hc
  simpa using this

/-! ### Determinism for non-noise instruments -/

lemma getInstrumentWaveform_rand_congr (id : ℤ) (h : id ≠ 6) (r₁ r₂ : ℝ) :
    getInstrumentWaveform id r₁ = getInstrumentWaveform id r₂ := by
  unfold getInstrumentWaveform
  split_ifs <;> simp_all

lemma noteSampleRaw_rand_congr (dayIdx i : ℕ) (count id : ℤ) (h : id ≠ 6)
    (rnd₁ rnd₂ : ℕ → ℕ → ℕ → ℝ) (t : ℝ) :
    noteSampleRaw dayIdx i count id rnd₁ t = noteSampleRaw dayIdx i count id rnd₂ t := by
  unfold noteSampleRaw
  cases hc : getChordFromContribution count (getFrequencyFromContribution count) with
  | none =>
      simp only [hc]
      rw [getInstrumentWaveform_rand_congr id h (rnd₁ dayIdx i 0) (rnd₂ dayIdx i 0)]
  | some l =>
      simp only [hc]
      congr 1
      refine congrArg List.sum (List.map_congr_left fun p _ => ?_)
      rw [getInstrumentWaveform_rand_congr id h (rnd₁ dayIdx i p.1) (rnd₂ dayIdx i p.1)]

lemma dayNoteSamples_rand_congr (dayIdx : ℕ) (count id : ℤ) (h : id ≠ 6)
    (tempo volume : ℚ) (rnd₁ rnd₂ : ℕ → ℕ → ℕ → ℝ) :
    dayNoteSamples dayIdx count id tempo volume rnd₁ =
      dayNoteSamples dayIdx count id tempo volume rnd₂ := by
  unfold dayNoteSamples
  refine List.map_congr_left fun i _ => ?_
  rw [noteSampleRaw_rand_congr dayIdx i count id h rnd₁ rnd₂]

/-- C9: for every fixed input and configuration with `instrumentId ≠ 6`,
the custom renderer is a deterministic function of its inputs: two runs
with different random oracles produce identical sample sequences (only the
noise-burst instrument consults the random source). -/
theorem renderer_deterministic (days : List ℤ) (instrumentId : ℤ)
    (tempo volume : ℚ) (rnd₁ rnd₂ : ℕ → ℕ → ℕ → ℝ) (h : instrumentId ≠ 6) :
    generateCustomMusicSamples days instrumentId tempo volume rnd₁ =
      generateCustomMusicSamples days instrumentId tempo volume rnd₂ := by
  unfold generateCustomMusicSamples
  suffices h' : ∀ dayIdx : ℕ,
      customSamplesFrom dayIdx days instrumentId tempo volume rnd₁ =
        customSamplesFrom dayIdx days instrumentId tempo volume rnd₂ from h' 0
  induction days with
  | nil => intro dayIdx; rfl
  | cons c rest ih =>
      intro dayIdx
      simp only [customSamplesFrom]
      rw [dayNoteSamples_rand_congr dayIdx c instrumentId h tempo volume rnd₁ rnd₂, ih]

/-- Witness for `renderer_deterministic` at a concrete day list and two
distinct oracles. -/
theorem renderer_deterministic_witness :
    (1 : ℤ) ≠ 6 ∧
      generateCustomMusicSamples [7] 1 120 (1 / 2) (fun _ _ _ => 0) =
        generateCustomMusicSamples [7] 1 120 (1 / 2) (fun _ _ _ => 1) :=
  ⟨by decide, renderer_deterministic [7] 1 120 (1 / 2) _ _ (by decide)⟩

/-! ### Service variant: custom entry point ignores its configuration -/

/-- C10: the service-variant `generateCustomMusic` delegates to
`generateAndSendMusic`, ignoring `instrumentId`, `tempo` and `volume`: the
produced WAV bytes coincide with simple-mode output for every
configuration. -/
theorem serviceCustomMusic_ignores_config :
    ∀ (days : List ℤ) (i₁ i₂ : ℤ) (t₁ t₂ v₁ v₂ : ℚ),
      serviceGenerateCustomMusicWav days i₁ t₁ v₁ = generateAndSendMusicWav days ∧
      serviceGenerateCustomMusicWav days i₁ t₁ v₁ =
        serviceGenerateCustomMusicWav days i₂ t₂ v₂ :=
  fun _ _ _ _ _ _ _ => ⟨rfl, rfl⟩

/-! ### Empty input (header-only WAV) -/

/-- C8: the empty day sequence renders to no samples and encodes to exactly
the 44 header bytes, with `Subchunk2Size = 0` and `ChunkSize = 36`. -/
theorem emptyInput_headerOnly_spec :
    createSamplesFromContributions [] = [] ∧
    createWavData (createSamplesFromContributions []) = getWavHeader 0 44100 ∧
    (createWavData (createSamplesFromContributions [])).length = 44 ∧
    decU32 (createWavData (createSamplesFromContributions [])) 40 = 0 ∧
    decU32 (createWavData (createSamplesFromContributions [])) 4 = 36 := by
  refine ⟨rfl, ?_, rfl, rfl, rfl⟩
  show getWavHeader 0 44100 ++ pcmData ([] : List ℝ) = getWavHeader 0 44100
  simp [pcmData]

end GithubMusic
